import Mathlib

/-! go.logging: a leveled-logging facade.

Shallow embedding of `logging.go`.

* `LogLevel` is Go's `uint8`, embedded as `Fin 256`.
* A Go string is embedded as a Lean `String`, a sequence of runes (the
  strings are taken to be valid UTF-8).
* The embedded `*log.Logger` is the sink: the logger state records every
  `Output(calldepth, s)` call made on it, in order.
* The standard library is external to the package.  `fmt.Sprint` and
  `fmt.Sprintf` are the fields of `Fmt`; the case table `unicode.ToUpper`
  consults for runes outside ASCII is the parameter `up`.  The general
  theorems are stated for all of them.
-/

/-! ## Constants -/

def logLevelEnv : String := "LOG_LEVEL"

def levelNone : String := "NONE"

def levelMandatory : String := "NOTICE"

def levelError : String := "ERROR"

def levelWarn : String := "WARN"

def levelInfo : String := "INFO"

def levelDebug : String := "DEBUG"

def levelTrace : String := "TRACE"

/-- The flags `log.LstdFlags | log.Lshortfile`, that is `(1 ||| 2) ||| 16`. -/
def DefaultFlags : Nat := 19

/-- The only error value of the package. -/
inductive LoggingError where
  | ErrInvalidLevel
  deriving DecidableEq, Repr

/-- The type `LogLevel uint8`. -/
abbrev LogLevel : Type := Fin 256

def LNone : LogLevel := 0

def LMandatory : LogLevel := 1

def LError : LogLevel := 2

def LWarn : LogLevel := 3

def LInfo : LogLevel := 4

def LDebug : LogLevel := 5

def LTrace : LogLevel := 6

/-- The method `LogLevel.String`: a switch with no case for `LError`, which
falls through to the final `return levelError` with every other value. -/
def LogLevel.String (ll : LogLevel) : String :=
  if ll = LNone then levelNone
  else if ll = LMandatory then levelMandatory
  else if ll = LWarn then levelWarn
  else if ll = LInfo then levelInfo
  else if ll = LDebug then levelDebug
  else if ll = LTrace then levelTrace
  else levelError

/-- The method `LogLevel.Prefix`, `fmt.Sprintf("%s - ", ll)`: the verb `%s`
renders a value that has a `String` method by calling it. -/
def LogLevel.Prefix (ll : LogLevel) :=
  LogLevel.String ll ++ " - "

/-! ## Upper-casing -/

/-- The function `unicode.ToUpper` on one rune: an ASCII rune is
upper-cased by subtracting `'a' - 'A'` from a lower-case letter, any other
rune goes through the Unicode case table `up`. -/
def unicodeToUpper (up : Char → Char) (r : Char) : Char :=
  if r.toNat ≤ 127 then
    if 97 ≤ r.toNat ∧ r.toNat ≤ 122 then Char.ofNat (r.toNat - 32) else r
  else up r

/-- The function `strings.ToUpper`: every rune of the string is mapped
through `unicode.ToUpper` (the fast path for ASCII-only strings computes the
same string). -/
def ToUpper (up : Char → Char) (s : String) : String :=
  String.mk (s.data.map (unicodeToUpper up))

/-! ## The logger -/

/-- A call `Output(calldepth, s)` on the embedded `*log.Logger`. -/
structure OutputCall where
  calldepth : Nat
  s : String
  deriving DecidableEq, Repr

/-- The struct `LevelLogger`: the current level and the embedded
`*log.Logger`, of which the state keeps the prefix, the flags and the calls
of `Output` made so far (oldest first). -/
structure LevelLogger where
  currentLevel : LogLevel
  logPrefix : String
  flag : Nat
  output : List OutputCall
  deriving DecidableEq, Repr

/-- The functions `fmt.Sprint` and `fmt.Sprintf` over the values of type
`Param` passed as `...interface{}`. -/
structure Fmt (Param : Type) where
  Sprint : List Param → String
  Sprintf : String → List Param → String

/-- The method `LevelLogger.SetLogLevel`: a switch on the upper-cased name. -/
def SetLogLevel (up : Char → Char) (l : LevelLogger) (level : String) : LevelLogger :=
  let u := ToUpper up level
  if u = levelNone then { l with currentLevel := LNone }
  else if u = levelError then { l with currentLevel := LError }
  else if u = levelWarn then { l with currentLevel := LWarn }
  else if u = levelInfo then { l with currentLevel := LInfo }
  else if u = levelDebug then { l with currentLevel := LDebug }
  else if u = levelTrace then { l with currentLevel := LTrace }
  else { l with currentLevel := LError }

/-- The function `New`: a zero-valued `LevelLogger` around `log.New(dest,
prefix, flag)`, on which `SetLogLevel(logLevelConfig)` is called;
`logLevelConfig` is the value of the environment variable `LOG_LEVEL` read
at package initialisation (the empty string when it is not set). -/
def New (up : Char → Char) (logLevelConfig : String) (pfx : String) (flag : Nat) :
    LevelLogger :=
  SetLogLevel up { currentLevel := 0, logPrefix := pfx, flag := flag, output := [] }
    logLevelConfig

/-- The method `LevelLogger.CurrentLevel`. -/
def CurrentLevel (l : LevelLogger) : LogLevel :=
  l.currentLevel

/-- The method `LevelLogger.SetLevel`: the new state and the returned
error (`none` for `nil`). -/
def SetLevel (l : LevelLogger) (ll : LogLevel) : LevelLogger × Option LoggingError :=
  if ll > LTrace then
    ({ l with currentLevel := LError }, some LoggingError.ErrInvalidLevel)
  else
    ({ l with currentLevel := ll }, none)

/-- The method `Output` of the embedded logger: the call is recorded. -/
def Output (l : LevelLogger) (calldepth : Nat) (s : String) : LevelLogger :=
  { l with output := l.output ++ [{ calldepth := calldepth, s := s }] }

/-- The method `LevelLogger.logf`. -/
def logf {Param : Type} (F : Fmt Param) (l : LevelLogger) (level : LogLevel)
    (formattedString : String) (params : List Param) : LevelLogger :=
  if level ≤ l.currentLevel then
    Output l 3 (LogLevel.Prefix level ++ F.Sprintf formattedString params)
  else l

/-- The method `LevelLogger.log`. -/
def log {Param : Type} (F : Fmt Param) (l : LevelLogger) (level : LogLevel)
    (params : List Param) : LevelLogger :=
  if level ≤ l.currentLevel then
    Output l 3 (LogLevel.Prefix level ++ F.Sprint params)
  else l

/-- The method `LevelLogger.Error`. -/
def Error {Param : Type} (F : Fmt Param) (l : LevelLogger) (err : Param) : LevelLogger :=
  log F l LError [err]

/-- The method `LevelLogger.Errorf`. -/
def Errorf {Param : Type} (F : Fmt Param) (l : LevelLogger) (formattedString : String)
    (params : List Param) : LevelLogger :=
  logf F l LError formattedString params

/-- The method `LevelLogger.Mandatoryp`. -/
def Mandatoryp {Param : Type} (F : Fmt Param) (l : LevelLogger) (params : List Param) :
    LevelLogger :=
  log F l LMandatory params

/-- The method `LevelLogger.Mandatory`. -/
def Mandatory {Param : Type} (F : Fmt Param) (l : LevelLogger) (formattedString : String)
    (params : List Param) : LevelLogger :=
  logf F l LMandatory formattedString params

/-- The method `LevelLogger.Warnp`. -/
def Warnp {Param : Type} (F : Fmt Param) (l : LevelLogger) (params : List Param) :
    LevelLogger :=
  log F l LWarn params

/-- The method `LevelLogger.Warn`. -/
def Warn {Param : Type} (F : Fmt Param) (l : LevelLogger) (formattedString : String)
    (params : List Param) : LevelLogger :=
  logf F l LWarn formattedString params

/-- The method `LevelLogger.Infop`. -/
def Infop {Param : Type} (F : Fmt Param) (l : LevelLogger) (params : List Param) :
    LevelLogger :=
  log F l LInfo params

/-- The method `LevelLogger.Info`. -/
def Info {Param : Type} (F : Fmt Param) (l : LevelLogger) (formattedString : String)
    (params : List Param) : LevelLogger :=
  logf F l LInfo formattedString params

/-- The method `LevelLogger.Debugp`. -/
def Debugp {Param : Type} (F : Fmt Param) (l : LevelLogger) (params : List Param) :
    LevelLogger :=
  log F l LDebug params

/-- The method `LevelLogger.Debug`. -/
def Debug {Param : Type} (F : Fmt Param) (l : LevelLogger) (formattedString : String)
    (params : List Param) : LevelLogger :=
  logf F l LDebug formattedString params

/-- The method `LevelLogger.Tracep`. -/
def Tracep {Param : Type} (F : Fmt Param) (l : LevelLogger) (params : List Param) :
    LevelLogger :=
  log F l LTrace params

/-- The method `LevelLogger.Trace`. -/
def Trace {Param : Type} (F : Fmt Param) (l : LevelLogger) (formattedString : String)
    (params : List Param) : LevelLogger :=
  logf F l LTrace formattedString params

/-! ## Calls on a logger -/

/-- The twelve emission methods of a `LevelLogger`, each with its arguments. -/
inductive Emission (Param : Type) where
  | Error (err : Param)
  | Errorf (formattedString : String) (params : List Param)
  | Mandatoryp (params : List Param)
  | Mandatory (formattedString : String) (params : List Param)
  | Warnp (params : List Param)
  | Warn (formattedString : String) (params : List Param)
  | Infop (params : List Param)
  | Info (formattedString : String) (params : List Param)
  | Debugp (params : List Param)
  | Debug (formattedString : String) (params : List Param)
  | Tracep (params : List Param)
  | Trace (formattedString : String) (params : List Param)

/-- The severity an emission method passes to `log` or `logf`. -/
def Emission.severity {Param : Type} : Emission Param → LogLevel
  | .Error _ => LError
  | .Errorf _ _ => LError
  | .Mandatoryp _ => LMandatory
  | .Mandatory _ _ => LMandatory
  | .Warnp _ => LWarn
  | .Warn _ _ => LWarn
  | .Infop _ => LInfo
  | .Info _ _ => LInfo
  | .Debugp _ => LDebug
  | .Debug _ _ => LDebug
  | .Tracep _ => LTrace
  | .Trace _ _ => LTrace

/-- The logger after an emission method has been called on it. -/
def emit {Param : Type} (F : Fmt Param) (l : LevelLogger) : Emission Param → LevelLogger
  | .Error err => Error F l err
  | .Errorf f ps => Errorf F l f ps
  | .Mandatoryp ps => Mandatoryp F l ps
  | .Mandatory f ps => Mandatory F l f ps
  | .Warnp ps => Warnp F l ps
  | .Warn f ps => Warn F l f ps
  | .Infop ps => Infop F l ps
  | .Info f ps => Info F l f ps
  | .Debugp ps => Debugp F l ps
  | .Debug f ps => Debug F l f ps
  | .Tracep ps => Tracep F l ps
  | .Trace f ps => Trace F l f ps

/-- A call a client can make on a `LevelLogger`. -/
inductive Call (Param : Type) where
  | SetLogLevel (level : String)
  | SetLevel (ll : LogLevel)
  | CurrentLevel
  | Emit (e : Emission Param)

/-- The logger after one call (the value a call returns is dropped). -/
def step {Param : Type} (up : Char → Char) (F : Fmt Param) (l : LevelLogger) :
    Call Param → LevelLogger
  | .SetLogLevel level => SetLogLevel up l level
  | .SetLevel ll => (SetLevel l ll).1
  | .CurrentLevel => l
  | .Emit e => emit F l e

/-- The logger after a finite sequence of calls, made in order. -/
def run {Param : Type} (up : Char → Char) (F : Fmt Param) (l : LevelLogger)
    (calls : List (Call Param)) : LevelLogger :=
  calls.foldl (step up F) l

/-! ## Sample collaborators, for evaluating the embedding -/

/-- A case table that leaves every rune unchanged.  The table is consulted
for runes outside ASCII only, so on ASCII strings every table gives the same
result. -/
def identityTable : Char → Char :=
  fun r => r

/-- A sample `Fmt` over string operands: `Sprint` of strings is their
concatenation, and `Sprintf` is meant for a format without verbs and no
operands, which it returns as it is. -/
def sampleFmt : Fmt String where
  Sprint := fun params => String.join params
  Sprintf := fun formattedString _ => formattedString

/-- A logger as `New(dest, "", DefaultFlags)` returns it when `LOG_LEVEL` is
not set. -/
def sampleLogger : LevelLogger :=
  New identityTable "" "" DefaultFlags

/-! ## Strings that differ in letter case -/

/-- The names `LogLevel.String` gives the seven members. -/
def canonicalNames : List String :=
  [LNone, LMandatory, LError, LWarn, LInfo, LDebug, LTrace].map LogLevel.String

/-- Two strings are equal when letter case is ignored: they have the same
upper-case form. -/
def caseVariant (up : Char → Char) (s t : String) : Prop :=
  ToUpper up s = ToUpper up t

instance (up : Char → Char) (s t : String) : Decidable (caseVariant up s t) :=
  inferInstanceAs (Decidable (ToUpper up s = ToUpper up t))

/-- Two runes are the same rune, or the upper-case and the lower-case form
of one ASCII letter (`'A'` to `'Z'` are 65 to 90, and the lower-case form
is 32 above). -/
def sameRuneUpToASCIICase (a b : Char) : Prop :=
  a = b ∨ (65 ≤ a.toNat ∧ a.toNat ≤ 90 ∧ b.toNat = a.toNat + 32) ∨
    (65 ≤ b.toNat ∧ b.toNat ≤ 90 ∧ a.toNat = b.toNat + 32)

instance (a b : Char) : Decidable (sameRuneUpToASCIICase a b) :=
  inferInstanceAs (Decidable (_ ∨ _ ∨ _))

/-- Two rune sequences have the same length and differ, position by
position, in the case of ASCII letters only. -/
def differOnlyInASCIICaseAux : List Char → List Char → Bool
  | [], [] => true
  | a :: s, b :: t => decide (sameRuneUpToASCIICase a b) && differOnlyInASCIICaseAux s t
  | _, _ => false

/-- Two strings differ only in the case of ASCII letters. -/
def differOnlyInASCIICase (s t : String) : Prop :=
  differOnlyInASCIICaseAux s.data t.data = true

instance (s t : String) : Decidable (differOnlyInASCIICase s t) :=
  inferInstanceAs (Decidable (_ = true))

/-! ## The package-level logger and the calls that do not return -/

/-- The package variable `DefaultLogger`, `New(os.Stderr, "", DefaultFlags)`,
as package initialisation leaves it. -/
def DefaultLogger (up : Char → Char) (logLevelConfig : String) : LevelLogger :=
  New up logLevelConfig "" DefaultFlags

/-- The way a call that does not return ends: `os.Exit(code)`, or
`panic(v)` with a string. -/
inductive Ending where
  | osExit (code : Nat)
  | panicked (v : String)
  deriving DecidableEq, Repr

/-- The package-level function `Fatal`, on the state of `DefaultLogger`. -/
def Fatal {Param : Type} (F : Fmt Param) (d : LevelLogger) (v : List Param) :
    LevelLogger × Ending :=
  (Output d 2 (F.Sprint v), Ending.osExit 1)

/-- The package-level function `Fatalf`, on the state of `DefaultLogger`. -/
def Fatalf {Param : Type} (F : Fmt Param) (d : LevelLogger) (format : String)
    (v : List Param) : LevelLogger × Ending :=
  (Output d 2 (F.Sprintf format v), Ending.osExit 1)

/-- The package-level function `Panic`, on the state of `DefaultLogger`. -/
def Panic {Param : Type} (F : Fmt Param) (d : LevelLogger) (v : List Param) :
    LevelLogger × Ending :=
  let s := F.Sprint v
  (Output d 2 s, Ending.panicked s)

/-- The package-level function `Panicf`, on the state of `DefaultLogger`. -/
def Panicf {Param : Type} (F : Fmt Param) (d : LevelLogger) (format : String)
    (v : List Param) : LevelLogger × Ending :=
  let s := F.Sprintf format v
  (Output d 2 s, Ending.panicked s)

/-! ## Notions the properties are stated with -/

/-- The message an emission method renders: `fmt.Sprint` of the operands
for `Error` and the methods in `p`, `fmt.Sprintf` of the format and the
operands for the others. -/
def Emission.rendered {Param : Type} (F : Fmt Param) : Emission Param → String
  | .Error err => F.Sprint [err]
  | .Errorf f ps => F.Sprintf f ps
  | .Mandatoryp ps => F.Sprint ps
  | .Mandatory f ps => F.Sprintf f ps
  | .Warnp ps => F.Sprint ps
  | .Warn f ps => F.Sprintf f ps
  | .Infop ps => F.Sprint ps
  | .Info f ps => F.Sprintf f ps
  | .Debugp ps => F.Sprint ps
  | .Debug f ps => F.Sprintf f ps
  | .Tracep ps => F.Sprint ps
  | .Trace f ps => F.Sprintf f ps

/-- The names the switch of `SetLogLevel` has a case for. -/
def recognizedNames : List String :=
  [levelNone, levelError, levelWarn, levelInfo, levelDebug, levelTrace]

/-- The setter by constant as its comment describes it, "the same as
SetLogLevel but accepts a LogLevel constant instead of string name": the
name of the constant is passed to `SetLogLevel`. -/
def SetLevelByName (up : Char → Char) (l : LevelLogger) (ll : LogLevel) : LevelLogger :=
  SetLogLevel up l (LogLevel.String ll)

/-- A call reached the sink: the `Output` calls of the logger after it are
those of the logger before it and one more. -/
def reachesSink (before after : LevelLogger) : Prop :=
  after.output ≠ [] ∧ after.output.dropLast = before.output

instance (before after : LevelLogger) : Decidable (reachesSink before after) :=
  inferInstanceAs (Decidable (_ ∧ _))

/-! ## Lemmas on `log` and `logf` -/

theorem log_of_le {Param : Type} (F : Fmt Param) (l : LevelLogger) (level : LogLevel)
    (params : List Param) (h : level ≤ l.currentLevel) :
    log F l level params = Output l 3 (LogLevel.Prefix level ++ F.Sprint params) := by
  simp [log, h]

theorem log_of_lt {Param : Type} (F : Fmt Param) (l : LevelLogger) (level : LogLevel)
    (params : List Param) (h : l.currentLevel < level) :
    log F l level params = l := by
  simp [log, not_le.mpr h]

theorem logf_of_le {Param : Type} (F : Fmt Param) (l : LevelLogger) (level : LogLevel)
    (formattedString : String) (params : List Param) (h : level ≤ l.currentLevel) :
    logf F l level formattedString params =
      Output l 3 (LogLevel.Prefix level ++ F.Sprintf formattedString params) := by
  simp [logf, h]

theorem logf_of_lt {Param : Type} (F : Fmt Param) (l : LevelLogger) (level : LogLevel)
    (formattedString : String) (params : List Param) (h : l.currentLevel < level) :
    logf F l level formattedString params = l := by
  simp [logf, not_le.mpr h]

theorem Output_output (l : LevelLogger) (calldepth : Nat) (s : String) :
    (Output l calldepth s).output = l.output ++ [{ calldepth := calldepth, s := s }] :=
  rfl

/-- Every emission method is `log` or `logf` at the severity of the method:
when the severity is at most the threshold, one call is appended. -/
theorem emit_of_le {Param : Type} (F : Fmt Param) (l : LevelLogger) (e : Emission Param)
    (h : e.severity ≤ l.currentLevel) :
    ∃ c, (emit F l e).output = l.output ++ [c] := by
  cases e
  all_goals
    first
      | exact ⟨_, congrArg LevelLogger.output (log_of_le F l _ _ h)⟩
      | exact ⟨_, congrArg LevelLogger.output (logf_of_le F l _ _ _ h)⟩

/-- When the severity of an emission method is above the threshold, the
logger is left as it was. -/
theorem emit_of_lt {Param : Type} (F : Fmt Param) (l : LevelLogger) (e : Emission Param)
    (h : l.currentLevel < e.severity) :
    emit F l e = l := by
  cases e <;>
    first
      | exact log_of_lt F l _ _ h
      | exact logf_of_lt F l _ _ _ h

/-- Every emission method has a severity above `LNone`. -/
theorem LNone_lt_severity {Param : Type} (e : Emission Param) : LNone < e.severity := by
  cases e
  all_goals first
    | exact (by decide : LNone < LMandatory)
    | exact (by decide : LNone < LError)
    | exact (by decide : LNone < LWarn)
    | exact (by decide : LNone < LInfo)
    | exact (by decide : LNone < LDebug)
    | exact (by decide : LNone < LTrace)

/-! ## C1: filtering -/

/-- C1: for a logger with threshold `T` and a severity `S`, `log` and `logf`
at `S` append exactly one call to the sink when `S ≤ T` and none when
`T < S`; the same holds of each of the twelve emission methods at its own
severity. -/
theorem emission_reaches_sink_iff_le {Param : Type} (F : Fmt Param) (l : LevelLogger)
    (S : LogLevel) (formattedString : String) (params : List Param)
    (e : Emission Param) :
    (S ≤ l.currentLevel →
      (∃ c, (log F l S params).output = l.output ++ [c]) ∧
      (∃ c, (logf F l S formattedString params).output = l.output ++ [c])) ∧
    (l.currentLevel < S →
      (log F l S params).output = l.output ∧
      (logf F l S formattedString params).output = l.output) ∧
    (e.severity ≤ l.currentLevel → ∃ c, (emit F l e).output = l.output ++ [c]) ∧
    (l.currentLevel < e.severity → (emit F l e).output = l.output) := by
  refine ⟨fun h => ⟨?_, ?_⟩, fun h => ⟨?_, ?_⟩, emit_of_le F l e, fun h => ?_⟩
  · rw [log_of_le F l S params h]
    exact ⟨_, rfl⟩
  · rw [logf_of_le F l S formattedString params h]
    exact ⟨_, rfl⟩
  · rw [log_of_lt F l S params h]
  · rw [logf_of_lt F l S formattedString params h]
  · rw [emit_of_lt F l e h]

/-- C1 at a logger with threshold `LError`: `log` and `logf` at `LError`
and `LNone` make one call each, at `LWarn` none, `Errorf` makes one call
and `Warn` none. -/
theorem emission_reaches_sink_iff_le_witness :
    ((∃ c, (log sampleFmt sampleLogger LError ["a"]).output = sampleLogger.output ++ [c]) ∧
      (∃ c, (logf sampleFmt sampleLogger LError "f" ["a"]).output =
        sampleLogger.output ++ [c])) ∧
    ((∃ c, (log sampleFmt sampleLogger LNone ["a"]).output = sampleLogger.output ++ [c]) ∧
      (∃ c, (logf sampleFmt sampleLogger LNone "f" ["a"]).output =
        sampleLogger.output ++ [c])) ∧
    ((log sampleFmt sampleLogger LWarn ["a"]).output = sampleLogger.output ∧
      (logf sampleFmt sampleLogger LWarn "f" ["a"]).output = sampleLogger.output) ∧
    (∃ c, (emit sampleFmt sampleLogger (Emission.Errorf "f" [])).output =
      sampleLogger.output ++ [c]) ∧
    (emit sampleFmt sampleLogger (Emission.Warn "f" [])).output = sampleLogger.output :=
  ⟨(emission_reaches_sink_iff_le sampleFmt sampleLogger LError "f" ["a"]
      (Emission.Errorf "f" [])).1 (by decide),
    (emission_reaches_sink_iff_le sampleFmt sampleLogger LNone "f" ["a"]
      (Emission.Errorf "f" [])).1 (by decide),
    (emission_reaches_sink_iff_le sampleFmt sampleLogger LWarn "f" ["a"]
      (Emission.Errorf "f" [])).2.1 (by decide),
    (emission_reaches_sink_iff_le sampleFmt sampleLogger LWarn "f" ["a"]
      (Emission.Errorf "f" [])).2.2.1 (by decide),
    (emission_reaches_sink_iff_le sampleFmt sampleLogger LWarn "f" ["a"]
      (Emission.Warn "f" [])).2.2.2 (by decide)⟩

/-! ## C2: `SetLevel` -/

/-- C2: for every `LogLevel` value `v`, if `v > LTrace` then `SetLevel(v)`
returns `ErrInvalidLevel` and leaves `CurrentLevel() == LError`; if
`v <= LTrace` then it returns no error and leaves `CurrentLevel() == v`. -/
theorem SetLevel_error_iff_above_LTrace (l : LevelLogger) (v : LogLevel) :
    (LTrace < v →
      (SetLevel l v).2 = some LoggingError.ErrInvalidLevel ∧
      CurrentLevel (SetLevel l v).1 = LError) ∧
    (v ≤ LTrace →
      (SetLevel l v).2 = none ∧ CurrentLevel (SetLevel l v).1 = v) := by
  constructor
  · intro h
    simp [SetLevel, CurrentLevel, h]
  · intro h
    simp [SetLevel, CurrentLevel, not_lt.mpr h]

/-- C2 at the values 254 and 100, which are out of range, and at `LInfo`. -/
theorem SetLevel_error_iff_above_LTrace_witness :
    ((SetLevel sampleLogger 254).2 = some LoggingError.ErrInvalidLevel ∧
      CurrentLevel (SetLevel sampleLogger 254).1 = LError) ∧
    ((SetLevel sampleLogger 100).2 = some LoggingError.ErrInvalidLevel ∧
      CurrentLevel (SetLevel sampleLogger 100).1 = LError) ∧
    ((SetLevel sampleLogger LInfo).2 = none ∧
      CurrentLevel (SetLevel sampleLogger LInfo).1 = LInfo) :=
  ⟨(SetLevel_error_iff_above_LTrace sampleLogger 254).1 (by decide),
    (SetLevel_error_iff_above_LTrace sampleLogger 100).1 (by decide),
    (SetLevel_error_iff_above_LTrace sampleLogger LInfo).2 (by decide)⟩

/-! ## Lemmas on upper-casing and `SetLogLevel` -/

theorem unicodeToUpper_eq_of_sameRune (up : Char → Char) (a b : Char)
    (h : sameRuneUpToASCIICase a b) : unicodeToUpper up a = unicodeToUpper up b := by
  rcases h with h | ⟨h1, h2, h3⟩ | ⟨h1, h2, h3⟩
  · rw [h]
  · have hb : b.toNat - 32 = a.toNat := by omega
    unfold unicodeToUpper
    rw [if_pos (show a.toNat ≤ 127 by omega),
      if_neg (show ¬ (97 ≤ a.toNat ∧ a.toNat ≤ 122) by omega),
      if_pos (show b.toNat ≤ 127 by omega),
      if_pos (show 97 ≤ b.toNat ∧ b.toNat ≤ 122 by omega), hb, Char.ofNat_toNat]
  · have ha : a.toNat - 32 = b.toNat := by omega
    unfold unicodeToUpper
    rw [if_pos (show a.toNat ≤ 127 by omega),
      if_pos (show 97 ≤ a.toNat ∧ a.toNat ≤ 122 by omega),
      if_pos (show b.toNat ≤ 127 by omega),
      if_neg (show ¬ (97 ≤ b.toNat ∧ b.toNat ≤ 122) by omega), ha, Char.ofNat_toNat]

theorem map_unicodeToUpper_eq_of_differOnlyInASCIICaseAux (up : Char → Char) :
    ∀ s t : List Char, differOnlyInASCIICaseAux s t = true →
      s.map (unicodeToUpper up) = t.map (unicodeToUpper up)
  | [], [], _ => rfl
  | [], _ :: _, h => by simp [differOnlyInASCIICaseAux] at h
  | _ :: _, [], h => by simp [differOnlyInASCIICaseAux] at h
  | a :: s, b :: t, h => by
    simp only [differOnlyInASCIICaseAux, Bool.and_eq_true, decide_eq_true_eq] at h
    simp only [List.map_cons]
    rw [unicodeToUpper_eq_of_sameRune up a b h.1,
      map_unicodeToUpper_eq_of_differOnlyInASCIICaseAux up s t h.2]

/-- Strings that differ only in the case of ASCII letters have the same
upper-case form. -/
theorem ToUpper_eq_of_differOnlyInASCIICase (up : Char → Char) (s t : String)
    (h : differOnlyInASCIICase s t) : ToUpper up s = ToUpper up t := by
  unfold ToUpper
  rw [map_unicodeToUpper_eq_of_differOnlyInASCIICaseAux up s.data t.data h]

/-- The level `SetLogLevel` stores depends on the upper-case form of the
name only, whatever the logger was. -/
theorem SetLogLevel_currentLevel_congr (up : Char → Char) (l l' : LevelLogger)
    (s t : String) (h : ToUpper up s = ToUpper up t) :
    (SetLogLevel up l s).currentLevel = (SetLogLevel up l' t).currentLevel := by
  unfold SetLogLevel
  simp only [h]
  split_ifs <;> rfl

/-- A name whose upper-case form is none of `NONE`, `WARN`, `INFO`, `DEBUG`
and `TRACE` sets the level `LError`. -/
theorem SetLogLevel_currentLevel_default (up : Char → Char) (l : LevelLogger) (s : String)
    (hNone : ToUpper up s ≠ levelNone) (hWarn : ToUpper up s ≠ levelWarn)
    (hInfo : ToUpper up s ≠ levelInfo) (hDebug : ToUpper up s ≠ levelDebug)
    (hTrace : ToUpper up s ≠ levelTrace) :
    (SetLogLevel up l s).currentLevel = LError := by
  unfold SetLogLevel
  simp only [hNone, hWarn, hInfo, hDebug, hTrace, if_false]
  split_ifs <;> rfl

/-- The members of the enumeration are the values up to `LTrace`. -/
theorem LogLevel_le_LTrace_iff (v : LogLevel) :
    v ≤ LTrace ↔ v = LNone ∨ v = LMandatory ∨ v = LError ∨ v = LWarn ∨ v = LInfo ∨
      v = LDebug ∨ v = LTrace := by
  rcases v with ⟨n, hn⟩
  simp only [LTrace, LNone, LMandatory, LError, LWarn, LInfo, LDebug, Fin.le_def,
    Fin.ext_iff]
  show n ≤ 6 ↔ n = 0 ∨ n = 1 ∨ n = 2 ∨ n = 3 ∨ n = 4 ∨ n = 5 ∨ n = 6
  omega

/-! ## C3: from a name back to its level -/

/-- C3 (counterexample): `SetLogLevel(LMandatory.String())` does not leave
`CurrentLevel() == LMandatory`. -/
theorem SetLogLevel_String_LMandatory_ne :
    CurrentLevel (SetLogLevel identityTable sampleLogger (LogLevel.String LMandatory)) ≠
      LMandatory := by
  decide

/-- C3 (amended): for each of the six members `X` other than `LMandatory`,
`SetLogLevel(X.String())` on any logger leaves `CurrentLevel() == X`;
`SetLogLevel(LMandatory.String())` leaves `CurrentLevel() == LError`. -/
theorem SetLogLevel_String_round_trip (up : Char → Char) (l : LevelLogger) (X : LogLevel) :
    (X ≤ LTrace → X ≠ LMandatory →
      CurrentLevel (SetLogLevel up l (LogLevel.String X)) = X) ∧
    CurrentLevel (SetLogLevel up l (LogLevel.String LMandatory)) = LError := by
  refine ⟨fun h hM => ?_, rfl⟩
  rcases (LogLevel_le_LTrace_iff X).1 h with h | h | h | h | h | h | h
  all_goals first
    | exact absurd h hM
    | (rw [h]; rfl)

/-- C3 (amended) at `LDebug` and at `LNone`, on a logger at `LError`. -/
theorem SetLogLevel_String_round_trip_witness :
    CurrentLevel (SetLogLevel identityTable sampleLogger (LogLevel.String LDebug)) = LDebug ∧
    CurrentLevel (SetLogLevel identityTable sampleLogger (LogLevel.String LNone)) = LNone :=
  ⟨(SetLogLevel_String_round_trip identityTable sampleLogger LDebug).1 (by decide)
      (by decide),
    (SetLogLevel_String_round_trip identityTable sampleLogger LNone).1 (by decide)
      (by decide)⟩

/-! ## C4: unrecognized names -/

/-- C4: a string that is not, ignoring letter case, one of the canonical
level names makes `SetLogLevel` leave `CurrentLevel() == LError`, on any
logger; the method has no result, so no error is signalled. -/
theorem SetLogLevel_unrecognized (up : Char → Char) (l : LevelLogger) (s : String)
    (h : ∀ n ∈ canonicalNames, ¬ caseVariant up s n) :
    CurrentLevel (SetLogLevel up l s) = LError := by
  have hmem : ∀ X ∈ [LNone, LWarn, LInfo, LDebug, LTrace],
      ToUpper up s ≠ LogLevel.String X := by
    intro X hX heq
    refine h (LogLevel.String X) ?_ ?_
    · simp only [List.mem_cons, List.mem_singleton, List.not_mem_nil, or_false] at hX
      rcases hX with hX | hX | hX | hX | hX <;> (rw [hX]; decide)
    · simp only [List.mem_cons, List.mem_singleton, List.not_mem_nil, or_false] at hX
      rcases hX with hX | hX | hX | hX | hX <;> (rw [hX] at heq ⊢; rw [caseVariant, heq]; rfl)
  exact SetLogLevel_currentLevel_default up l s
    (hmem LNone (by simp)) (hmem LWarn (by simp)) (hmem LInfo (by simp))
    (hmem LDebug (by simp)) (hmem LTrace (by simp))

/-- C4 at `"BOGUS"`, `"INVALIDLOGLEVEL"` and the empty string, on a logger
whose level was `LDebug`. -/
theorem SetLogLevel_unrecognized_witness :
    CurrentLevel (SetLogLevel identityTable
      (SetLogLevel identityTable sampleLogger "DEBUG") "BOGUS") = LError ∧
    CurrentLevel (SetLogLevel identityTable
      (SetLogLevel identityTable sampleLogger "DEBUG") "INVALIDLOGLEVEL") = LError ∧
    CurrentLevel (SetLogLevel identityTable
      (SetLogLevel identityTable sampleLogger "DEBUG") "") = LError :=
  ⟨SetLogLevel_unrecognized identityTable _ "BOGUS" (by decide),
    SetLogLevel_unrecognized identityTable _ "INVALIDLOGLEVEL" (by decide),
    SetLogLevel_unrecognized identityTable _ "" (by decide)⟩

/-! ## C5: letter case of a name -/

/-- C5: names that differ only in the case of ASCII letters make
`SetLogLevel` leave the same threshold; `"debug"`, `"Debug"` and `"DEBUG"`
all set `LDebug`, after which every emission method at INFO or DEBUG
appends one call to the sink and every emission method at TRACE none. -/
theorem SetLogLevel_case_insensitive {Param : Type} (up : Char → Char) (F : Fmt Param)
    (l l' : LevelLogger) (s s' : String) (e : Emission Param) :
    (differOnlyInASCIICase s s' →
      CurrentLevel (SetLogLevel up l s) = CurrentLevel (SetLogLevel up l' s')) ∧
    (∀ n ∈ ["debug", "Debug", "DEBUG"],
      CurrentLevel (SetLogLevel up l n) = LDebug ∧
      (e.severity = LInfo ∨ e.severity = LDebug →
        ∃ c, (emit F (SetLogLevel up l n) e).output = (SetLogLevel up l n).output ++ [c]) ∧
      (e.severity = LTrace →
        (emit F (SetLogLevel up l n) e).output = (SetLogLevel up l n).output)) := by
  refine ⟨fun h => ?_, fun n hn => ?_⟩
  · exact SetLogLevel_currentLevel_congr up l l' s s'
      (ToUpper_eq_of_differOnlyInASCIICase up s s' h)
  · have hlevel : (SetLogLevel up l n).currentLevel = LDebug := by
      simp only [List.mem_cons, List.mem_singleton, List.not_mem_nil, or_false] at hn
      rcases hn with hn | hn | hn <;> (rw [hn]; rfl)
    refine ⟨hlevel, fun he => emit_of_le F _ e ?_, fun he => ?_⟩
    · rw [hlevel]
      rcases he with he | he
      · exact he ▸ (by decide : LInfo ≤ LDebug)
      · exact he ▸ (by decide : LDebug ≤ LDebug)
    · rw [emit_of_lt F _ e]
      rw [hlevel]
      exact he ▸ (by decide : LDebug < LTrace)

/-- C5 at `"wArN"` and `"Warn"` on loggers in different states, and at
`"debug"` followed by `Info`, `Debugp` and `Trace`. -/
theorem SetLogLevel_case_insensitive_witness :
    CurrentLevel (SetLogLevel identityTable sampleLogger "wArN") =
      CurrentLevel (SetLogLevel identityTable
        (SetLogLevel identityTable sampleLogger "TRACE") "Warn") ∧
    CurrentLevel (SetLogLevel identityTable sampleLogger "debug") = LDebug ∧
    (∃ c, (emit sampleFmt (SetLogLevel identityTable sampleLogger "debug")
        (Emission.Info "i" [])).output =
      (SetLogLevel identityTable sampleLogger "debug").output ++ [c]) ∧
    (∃ c, (emit sampleFmt (SetLogLevel identityTable sampleLogger "debug")
        (Emission.Debugp ["d"])).output =
      (SetLogLevel identityTable sampleLogger "debug").output ++ [c]) ∧
    (emit sampleFmt (SetLogLevel identityTable sampleLogger "debug")
        (Emission.Trace "t" [])).output =
      (SetLogLevel identityTable sampleLogger "debug").output :=
  ⟨(SetLogLevel_case_insensitive identityTable sampleFmt sampleLogger
      (SetLogLevel identityTable sampleLogger "TRACE") "wArN" "Warn"
      (Emission.Info "i" [])).1 (by decide),
    ((SetLogLevel_case_insensitive identityTable sampleFmt sampleLogger sampleLogger
      "wArN" "Warn" (Emission.Info "i" [])).2 "debug" (by decide)).1,
    ((SetLogLevel_case_insensitive identityTable sampleFmt sampleLogger sampleLogger
      "wArN" "Warn" (Emission.Info "i" [])).2 "debug" (by decide)).2.1 (Or.inl rfl),
    ((SetLogLevel_case_insensitive identityTable sampleFmt sampleLogger sampleLogger
      "wArN" "Warn" (Emission.Debugp ["d"])).2 "debug" (by decide)).2.1 (Or.inr rfl),
    ((SetLogLevel_case_insensitive identityTable sampleFmt sampleLogger sampleLogger
      "wArN" "Warn" (Emission.Trace "t" [])).2 "debug" (by decide)).2.2 rfl⟩

/-! ## C6 and C7: `NONE` and `MANDATORY` -/

/-- A name that does not upper-case to `NONE` sets a level of `LError` or
above. -/
theorem LError_le_SetLogLevel_currentLevel (up : Char → Char) (l : LevelLogger)
    (s : String) (h : ToUpper up s ≠ levelNone) :
    LError ≤ (SetLogLevel up l s).currentLevel := by
  unfold SetLogLevel
  simp only [h, if_false]
  split_ifs
  all_goals first
    | exact (by decide : LError ≤ LError)
    | exact (by decide : LError ≤ LWarn)
    | exact (by decide : LError ≤ LInfo)
    | exact (by decide : LError ≤ LDebug)
    | exact (by decide : LError ≤ LTrace)

/-- A level other than `LNone` is `LMandatory` or above. -/
theorem LMandatory_le_of_ne_LNone (v : LogLevel) (h : v ≠ LNone) : LMandatory ≤ v := by
  rcases v with ⟨n, hn⟩
  simp only [LNone, LMandatory, Fin.le_def, ne_eq, Fin.ext_iff] at h ⊢
  have h' : n ≠ 0 := h
  show 1 ≤ n
  omega

/-- C6: after `SetLogLevel("NONE")` none of the twelve emission methods
appends a call to the sink; after `SetLogLevel(s)` for a string `s` that is
not a case variant of `"NONE"`, `Mandatory` and `Mandatoryp` each append
exactly one call. -/
theorem NONE_silences_and_other_names_keep_Mandatory {Param : Type} (up : Char → Char)
    (F : Fmt Param) (l : LevelLogger) (e : Emission Param) (s : String)
    (formattedString : String) (params : List Param) :
    (emit F (SetLogLevel up l "NONE") e).output = (SetLogLevel up l "NONE").output ∧
    (¬ caseVariant up s "NONE" →
      (∃ c, (Mandatory F (SetLogLevel up l s) formattedString params).output =
        (SetLogLevel up l s).output ++ [c]) ∧
      (∃ c, (Mandatoryp F (SetLogLevel up l s) params).output =
        (SetLogLevel up l s).output ++ [c])) := by
  constructor
  · rw [emit_of_lt F _ e]
    have hlevel : (SetLogLevel up l "NONE").currentLevel = LNone := rfl
    rw [hlevel]
    exact LNone_lt_severity e
  · intro h
    have hs : ToUpper up s ≠ levelNone := h
    have hle : LMandatory ≤ (SetLogLevel up l s).currentLevel :=
      le_trans (by decide) (LError_le_SetLogLevel_currentLevel up l s hs)
    exact ⟨emit_of_le F _ (Emission.Mandatory formattedString params) hle,
      emit_of_le F _ (Emission.Mandatoryp params) hle⟩

/-- C6 at `"none"` and `"NONE"` for the silence, and at `"Info"` and
`"bogus"` for `Mandatory` and `Mandatoryp`. -/
theorem NONE_silences_and_other_names_keep_Mandatory_witness :
    (emit sampleFmt (SetLogLevel identityTable sampleLogger "NONE")
        (Emission.Mandatory "m" [])).output =
      (SetLogLevel identityTable sampleLogger "NONE").output ∧
    (∃ c, (Mandatory sampleFmt (SetLogLevel identityTable sampleLogger "Info") "m" []).output =
      (SetLogLevel identityTable sampleLogger "Info").output ++ [c]) ∧
    (∃ c, (Mandatoryp sampleFmt (SetLogLevel identityTable sampleLogger "bogus") ["m"]).output =
      (SetLogLevel identityTable sampleLogger "bogus").output ++ [c]) :=
  ⟨(NONE_silences_and_other_names_keep_Mandatory identityTable sampleFmt sampleLogger
      (Emission.Mandatory "m" []) "Info" "m" []).1,
    ((NONE_silences_and_other_names_keep_Mandatory identityTable sampleFmt sampleLogger
      (Emission.Mandatory "m" []) "Info" "m" []).2 (by decide)).1,
    ((NONE_silences_and_other_names_keep_Mandatory identityTable sampleFmt sampleLogger
      (Emission.Mandatory "m" []) "bogus" "m" ["m"]).2 (by decide)).2⟩

/-- C7 (counterexample): on a logger whose threshold is `LNone`, neither
`Mandatory` nor `Mandatoryp` appends a call to the sink. -/
theorem Mandatory_silent_at_LNone :
    CurrentLevel (SetLevel sampleLogger LNone).1 = LNone ∧
    (Mandatory sampleFmt (SetLevel sampleLogger LNone).1 "m" []).output =
      (SetLevel sampleLogger LNone).1.output ∧
    (Mandatoryp sampleFmt (SetLevel sampleLogger LNone).1 ["m"]).output =
      (SetLevel sampleLogger LNone).1.output := by
  decide

/-- C7 (amended): for every threshold a logger can hold other than `LNone`,
a call to `Mandatory` or `Mandatoryp` appends exactly one call to the sink. -/
theorem Mandatory_logs_unless_LNone {Param : Type} (F : Fmt Param) (l : LevelLogger)
    (formattedString : String) (params : List Param) (h : l.currentLevel ≠ LNone) :
    (∃ c, (Mandatory F l formattedString params).output = l.output ++ [c]) ∧
    (∃ c, (Mandatoryp F l params).output = l.output ++ [c]) :=
  ⟨emit_of_le F l (Emission.Mandatory formattedString params)
      (LMandatory_le_of_ne_LNone _ h),
    emit_of_le F l (Emission.Mandatoryp params) (LMandatory_le_of_ne_LNone _ h)⟩

/-- C7 (amended) at a logger whose threshold is `LMandatory`. -/
theorem Mandatory_logs_unless_LNone_witness :
    (∃ c, (Mandatory sampleFmt (SetLevel sampleLogger LMandatory).1 "m" []).output =
      (SetLevel sampleLogger LMandatory).1.output ++ [c]) ∧
    (∃ c, (Mandatoryp sampleFmt (SetLevel sampleLogger LMandatory).1 ["m"]).output =
      (SetLevel sampleLogger LMandatory).1.output ++ [c]) :=
  Mandatory_logs_unless_LNone sampleFmt (SetLevel sampleLogger LMandatory).1 "m" ["m"]
    (by decide)

/-! ## C8: the threshold is always a member of the enumeration -/

theorem SetLogLevel_currentLevel_le_LTrace (up : Char → Char) (l : LevelLogger)
    (s : String) : (SetLogLevel up l s).currentLevel ≤ LTrace := by
  unfold SetLogLevel
  simp only []
  split_ifs
  all_goals first
    | exact (by decide : LNone ≤ LTrace)
    | exact (by decide : LError ≤ LTrace)
    | exact (by decide : LWarn ≤ LTrace)
    | exact (by decide : LInfo ≤ LTrace)
    | exact (by decide : LDebug ≤ LTrace)
    | exact (by decide : LTrace ≤ LTrace)

theorem SetLevel_currentLevel_le_LTrace (l : LevelLogger) (v : LogLevel) :
    (SetLevel l v).1.currentLevel ≤ LTrace := by
  unfold SetLevel
  split_ifs with h
  · exact (by decide : LError ≤ LTrace)
  · exact not_lt.mp h

theorem log_currentLevel {Param : Type} (F : Fmt Param) (l : LevelLogger)
    (level : LogLevel) (params : List Param) :
    (log F l level params).currentLevel = l.currentLevel := by
  unfold log
  split_ifs <;> rfl

theorem logf_currentLevel {Param : Type} (F : Fmt Param) (l : LevelLogger)
    (level : LogLevel) (formattedString : String) (params : List Param) :
    (logf F l level formattedString params).currentLevel = l.currentLevel := by
  unfold logf
  split_ifs <;> rfl

theorem emit_currentLevel {Param : Type} (F : Fmt Param) (l : LevelLogger)
    (e : Emission Param) : (emit F l e).currentLevel = l.currentLevel := by
  cases e
  all_goals first
    | exact log_currentLevel F l _ _
    | exact logf_currentLevel F l _ _ _

/-- One call keeps the threshold at or below `LTrace`. -/
theorem step_currentLevel_le_LTrace {Param : Type} (up : Char → Char) (F : Fmt Param)
    (l : LevelLogger) (c : Call Param) (h : l.currentLevel ≤ LTrace) :
    (step up F l c).currentLevel ≤ LTrace := by
  cases c with
  | SetLogLevel level => exact SetLogLevel_currentLevel_le_LTrace up l level
  | SetLevel ll => exact SetLevel_currentLevel_le_LTrace l ll
  | CurrentLevel => exact h
  | Emit e =>
    show (emit F l e).currentLevel ≤ LTrace
    rw [emit_currentLevel]
    exact h

/-- A sequence of calls keeps the threshold at or below `LTrace`. -/
theorem run_currentLevel_le_LTrace {Param : Type} (up : Char → Char) (F : Fmt Param)
    (calls : List (Call Param)) :
    ∀ l : LevelLogger, l.currentLevel ≤ LTrace → (run up F l calls).currentLevel ≤ LTrace := by
  induction calls with
  | nil => exact fun l h => h
  | cons c calls ih =>
    intro l h
    exact ih (step up F l c) (step_currentLevel_le_LTrace up F l c h)

/-- C8: for a logger created by `New`, whatever the value of `LOG_LEVEL`,
after any finite sequence of `SetLogLevel` (any string), `SetLevel` (any
`uint8` value), `CurrentLevel` and emission calls, `CurrentLevel()` is at
most `LTrace`, that is, one of the seven defined members. -/
theorem CurrentLevel_always_valid {Param : Type} (up : Char → Char) (F : Fmt Param)
    (logLevelConfig pfx : String) (flag : Nat) (calls : List (Call Param)) :
    CurrentLevel (run up F (New up logLevelConfig pfx flag) calls) ≤ LTrace ∧
    CurrentLevel (run up F (New up logLevelConfig pfx flag) calls) ∈
      [LNone, LMandatory, LError, LWarn, LInfo, LDebug, LTrace] := by
  have h : CurrentLevel (run up F (New up logLevelConfig pfx flag) calls) ≤ LTrace :=
    run_currentLevel_le_LTrace up F calls _
      (SetLogLevel_currentLevel_le_LTrace up _ logLevelConfig)
  refine ⟨h, ?_⟩
  have h' := (LogLevel_le_LTrace_iff _).1 h
  simp only [List.mem_cons, List.mem_singleton, List.not_mem_nil, or_false]
  exact h'

/-! ## C9 and C10: the names of the levels -/

/-- C9: `LogLevel.String` is a total function, and for every value `v`
above `LTrace` it returns what `LError.String()` returns, the string
`"ERROR"`. -/
theorem String_above_LTrace (v : LogLevel) (h : LTrace < v) :
    LogLevel.String v = LogLevel.String LError ∧ LogLevel.String v = "ERROR" := by
  have h0 : v ≠ LNone := fun e => absurd (e ▸ h) (by decide)
  have h1 : v ≠ LMandatory := fun e => absurd (e ▸ h) (by decide)
  have h3 : v ≠ LWarn := fun e => absurd (e ▸ h) (by decide)
  have h4 : v ≠ LInfo := fun e => absurd (e ▸ h) (by decide)
  have h5 : v ≠ LDebug := fun e => absurd (e ▸ h) (by decide)
  have h6 : v ≠ LTrace := fun e => absurd (e ▸ h) (by decide)
  have hv : LogLevel.String v = levelError := by
    unfold LogLevel.String
    rw [if_neg h0, if_neg h1, if_neg h3, if_neg h4, if_neg h5, if_neg h6]
  exact ⟨hv.trans (by decide), hv.trans (by decide)⟩

/-- C9 at the values 7, 100, 254 and 255. -/
theorem String_above_LTrace_witness :
    (LogLevel.String 7 = LogLevel.String LError ∧ LogLevel.String 7 = "ERROR") ∧
    (LogLevel.String 100 = LogLevel.String LError ∧ LogLevel.String 100 = "ERROR") ∧
    (LogLevel.String 254 = LogLevel.String LError ∧ LogLevel.String 254 = "ERROR") ∧
    (LogLevel.String 255 = LogLevel.String LError ∧ LogLevel.String 255 = "ERROR") :=
  ⟨String_above_LTrace 7 (by decide), String_above_LTrace 100 (by decide),
    String_above_LTrace 254 (by decide), String_above_LTrace 255 (by decide)⟩

/-- C10 (counterexample): the name of `LMandatory` is not `"MANDATORY"` and
its prefix is not `"MANDATORY - "`. -/
theorem String_LMandatory_ne_MANDATORY :
    LogLevel.String LMandatory ≠ "MANDATORY" ∧
    LogLevel.Prefix LMandatory ≠ "MANDATORY - " := by
  decide

/-- C10 (amended): the names `LogLevel.String` returns for `LNone`,
`LMandatory`, `LError`, `LWarn`, `LInfo`, `LDebug`, `LTrace` are `"NONE"`,
`"NOTICE"`, `"ERROR"`, `"WARN"`, `"INFO"`, `"DEBUG"`, `"TRACE"`, and
`LogLevel.Prefix` returns the name followed by `" - "`, so that the prefix of
`LMandatory` is `"NOTICE - "`. -/
theorem String_and_Prefix_of_members (ll : LogLevel) :
    canonicalNames = ["NONE", "NOTICE", "ERROR", "WARN", "INFO", "DEBUG", "TRACE"] ∧
    LogLevel.Prefix ll = LogLevel.String ll ++ " - " ∧
    [LNone, LMandatory, LError, LWarn, LInfo, LDebug, LTrace].map LogLevel.Prefix =
      ["NONE - ", "NOTICE - ", "ERROR - ", "WARN - ", "INFO - ", "DEBUG - ", "TRACE - "] :=
  ⟨by decide, rfl, by decide⟩

/-! ## C11: the level of a new logger -/

/-- The prefix of `LError` is the string `"ERROR - "`. -/
theorem Prefix_LError : LogLevel.Prefix LError = "ERROR - " := by
  decide

/-- A name that is not a case variant of a name `SetLogLevel` has a case
for sets the level `LError`. -/
theorem SetLogLevel_currentLevel_of_not_recognized (up : Char → Char) (l : LevelLogger)
    (s : String) (h : ∀ n ∈ recognizedNames, ¬ caseVariant up s n) :
    (SetLogLevel up l s).currentLevel = LError := by
  have hne : ∀ n ∈ recognizedNames, ToUpper up n = n → ToUpper up s ≠ n :=
    fun n hn hfix heq => h n hn (heq.trans hfix.symm)
  exact SetLogLevel_currentLevel_default up l s
    (hne levelNone (by decide) rfl) (hne levelWarn (by decide) rfl)
    (hne levelInfo (by decide) rfl) (hne levelDebug (by decide) rfl)
    (hne levelTrace (by decide) rfl)

/-- C11: when the value of `LOG_LEVEL` seen by `New` is the empty string or
is not a recognized name, the new logger has `CurrentLevel() == LError`, an
emission at WARN (`Warn`, `Warnp`) makes no sink call on it and an emission
at ERROR (`Error`, `Errorf`) makes exactly one, whose text starts with
`"ERROR - "`; and for every value of `LOG_LEVEL` the initial threshold is
the one `SetLogLevel` sets for that value on any logger. -/
theorem New_default_level {Param : Type} (up : Char → Char) (F : Fmt Param)
    (logLevelConfig pfx : String) (flag : Nat) (l : LevelLogger) (err : Param)
    (formattedString : String) (params : List Param) :
    (logLevelConfig = "" ∨ (∀ n ∈ recognizedNames, ¬ caseVariant up logLevelConfig n) →
      CurrentLevel (New up logLevelConfig pfx flag) = LError ∧
      (Warn F (New up logLevelConfig pfx flag) formattedString params).output = [] ∧
      (Warnp F (New up logLevelConfig pfx flag) params).output = [] ∧
      (Error F (New up logLevelConfig pfx flag) err).output =
        [{ calldepth := 3, s := "ERROR - " ++ F.Sprint [err] }] ∧
      (Errorf F (New up logLevelConfig pfx flag) formattedString params).output =
        [{ calldepth := 3, s := "ERROR - " ++ F.Sprintf formattedString params }]) ∧
    CurrentLevel (New up logLevelConfig pfx flag) =
      CurrentLevel (SetLogLevel up l logLevelConfig) := by
  refine ⟨fun h => ?_, SetLogLevel_currentLevel_congr up _ l _ _ rfl⟩
  have hlevel : (New up logLevelConfig pfx flag).currentLevel = LError := by
    rcases h with h | h
    · rw [h]
      rfl
    · exact SetLogLevel_currentLevel_of_not_recognized up _ logLevelConfig h
  have hout : (New up logLevelConfig pfx flag).output = [] := by
    unfold New SetLogLevel
    simp only []
    split_ifs <;> rfl
  have hlt : (New up logLevelConfig pfx flag).currentLevel < LWarn := by
    rw [hlevel]
    decide
  have hle : LError ≤ (New up logLevelConfig pfx flag).currentLevel := by
    rw [hlevel]
  refine ⟨hlevel, ?_, ?_, ?_, ?_⟩
  · rw [Warn, logf_of_lt F _ _ _ _ hlt, hout]
  · rw [Warnp, log_of_lt F _ _ _ hlt, hout]
  · rw [Error, log_of_le F _ _ _ hle, Output_output, hout, Prefix_LError]
    rfl
  · rw [Errorf, logf_of_le F _ _ _ _ hle, Output_output, hout, Prefix_LError]
    rfl

/-- C11 with `LOG_LEVEL` not set and with `LOG_LEVEL=verbose`. -/
theorem New_default_level_witness :
    (CurrentLevel (New identityTable "" "" DefaultFlags) = LError ∧
      (Warn sampleFmt (New identityTable "" "" DefaultFlags) "w" []).output = [] ∧
      (Warnp sampleFmt (New identityTable "" "" DefaultFlags) []).output = [] ∧
      (Error sampleFmt (New identityTable "" "" DefaultFlags) "e").output =
        [{ calldepth := 3, s := "ERROR - " ++ sampleFmt.Sprint ["e"] }] ∧
      (Errorf sampleFmt (New identityTable "" "" DefaultFlags) "w" []).output =
        [{ calldepth := 3, s := "ERROR - " ++ sampleFmt.Sprintf "w" [] }]) ∧
    CurrentLevel (New identityTable "verbose" "" DefaultFlags) = LError :=
  ⟨(New_default_level identityTable sampleFmt "" "" DefaultFlags sampleLogger "e" "w"
      []).1 (Or.inl rfl),
    ((New_default_level identityTable sampleFmt "verbose" "" DefaultFlags sampleLogger "e"
      "w" []).1 (Or.inr (by decide))).1⟩

/-! ## C12: what changes the threshold -/

/-- C12: every emission method, `log`, `logf` and `CurrentLevel` leave the
threshold as it was, whether or not the call was permitted; a call that
changes the threshold is a `SetLogLevel` or a `SetLevel`. -/
theorem threshold_changed_by_setters_only {Param : Type} (up : Char → Char)
    (F : Fmt Param) (l : LevelLogger) (e : Emission Param) (S : LogLevel)
    (formattedString : String) (params : List Param) (c : Call Param) :
    CurrentLevel (emit F l e) = CurrentLevel l ∧
    CurrentLevel (log F l S params) = CurrentLevel l ∧
    CurrentLevel (logf F l S formattedString params) = CurrentLevel l ∧
    step up F l Call.CurrentLevel = l ∧
    (CurrentLevel (step up F l c) ≠ CurrentLevel l →
      (∃ level, c = Call.SetLogLevel level) ∨ (∃ ll, c = Call.SetLevel ll)) := by
  refine ⟨emit_currentLevel F l e, log_currentLevel F l S params,
    logf_currentLevel F l S formattedString params, rfl, fun h => ?_⟩
  cases c with
  | SetLogLevel level => exact Or.inl ⟨level, rfl⟩
  | SetLevel ll => exact Or.inr ⟨ll, rfl⟩
  | CurrentLevel => exact absurd rfl h
  | Emit e' => exact absurd (emit_currentLevel F l e') h

/-- C12 on a logger at `LError`: a permitted `Error`, a `Trace` that is not
permitted and `CurrentLevel` keep the threshold, and `SetLogLevel("debug")`,
which changes it, is a setter. -/
theorem threshold_changed_by_setters_only_witness :
    CurrentLevel (emit sampleFmt sampleLogger (Emission.Error "e")) =
      CurrentLevel sampleLogger ∧
    CurrentLevel (emit sampleFmt sampleLogger (Emission.Trace "t" [])) =
      CurrentLevel sampleLogger ∧
    step identityTable sampleFmt sampleLogger Call.CurrentLevel = sampleLogger ∧
    ((∃ level, (Call.SetLogLevel "debug" : Call String) = Call.SetLogLevel level) ∨
      (∃ ll, (Call.SetLogLevel "debug" : Call String) = Call.SetLevel ll)) :=
  ⟨(threshold_changed_by_setters_only identityTable sampleFmt sampleLogger
      (Emission.Error "e") LError "f" [] Call.CurrentLevel).1,
    (threshold_changed_by_setters_only identityTable sampleFmt sampleLogger
      (Emission.Trace "t" []) LError "f" [] Call.CurrentLevel).1,
    (threshold_changed_by_setters_only identityTable sampleFmt sampleLogger
      (Emission.Error "e") LError "f" [] Call.CurrentLevel).2.2.2.1,
    (threshold_changed_by_setters_only identityTable sampleFmt sampleLogger
      (Emission.Error "e") LError "f" [] (Call.SetLogLevel "debug")).2.2.2.2 (by decide)⟩

/-! ## C13: `Fatal`, `Fatalf`, `Panic` and `Panicf` -/

/-- C13: whatever the threshold of `DefaultLogger`, `LNone` included,
`Fatal`, `Fatalf`, `Panic` and `Panicf` each append exactly one call to the
sink, whose text is the rendered message with no severity prefix; `Fatal`
and `Fatalf` end in `os.Exit(1)`, and the value `Panic` and `Panicf` raise
is the string they sent to the sink. -/
theorem Fatal_and_Panic_bypass_filtering {Param : Type} (F : Fmt Param) (d : LevelLogger)
    (format : String) (v : List Param) :
    ((Fatal F d v).1.output = d.output ++ [{ calldepth := 2, s := F.Sprint v }] ∧
      (Fatal F d v).2 = Ending.osExit 1) ∧
    ((Fatalf F d format v).1.output =
        d.output ++ [{ calldepth := 2, s := F.Sprintf format v }] ∧
      (Fatalf F d format v).2 = Ending.osExit 1) ∧
    ((Panic F d v).1.output = d.output ++ [{ calldepth := 2, s := F.Sprint v }] ∧
      (Panic F d v).2 = Ending.panicked (F.Sprint v)) ∧
    ((Panicf F d format v).1.output =
        d.output ++ [{ calldepth := 2, s := F.Sprintf format v }] ∧
      (Panicf F d format v).2 = Ending.panicked (F.Sprintf format v)) ∧
    (∀ up : Char → Char,
      (Panic F (SetLogLevel up d "NONE") v).1.output =
        d.output ++ [{ calldepth := 2, s := F.Sprint v }] ∧
      (Fatal F (SetLevel d LNone).1 v).1.output =
        d.output ++ [{ calldepth := 2, s := F.Sprint v }]) := by
  refine ⟨⟨rfl, rfl⟩, ⟨rfl, rfl⟩, ⟨rfl, rfl⟩, ⟨rfl, rfl⟩, fun up => ⟨rfl, ?_⟩⟩
  have h : (SetLevel d LNone).1.output = d.output := by
    unfold SetLevel
    split_ifs <;> rfl
  show (SetLevel d LNone).1.output ++ _ = _
  rw [h]

/-! ## C14: the setter by constant against the setter by name -/

/-- The name of a value above `LTrace` is the name of `LError`. -/
theorem LogLevel_String_of_LTrace_lt (v : LogLevel) (h : LTrace < v) :
    LogLevel.String v = levelError := by
  have h0 : v ≠ LNone := fun e => absurd (e ▸ h) (by decide)
  have h1 : v ≠ LMandatory := fun e => absurd (e ▸ h) (by decide)
  have h3 : v ≠ LWarn := fun e => absurd (e ▸ h) (by decide)
  have h4 : v ≠ LInfo := fun e => absurd (e ▸ h) (by decide)
  have h5 : v ≠ LDebug := fun e => absurd (e ▸ h) (by decide)
  have h6 : v ≠ LTrace := fun e => absurd (e ▸ h) (by decide)
  unfold LogLevel.String
  rw [if_neg h0, if_neg h1, if_neg h3, if_neg h4, if_neg h5, if_neg h6]

/-- C14 (counterexample): `SetLevel(LMandatory)` and
`SetLogLevel(LMandatory.String())` leave different thresholds. -/
theorem SetLevel_LMandatory_ne_SetLogLevel_String :
    CurrentLevel (SetLevel sampleLogger LMandatory).1 ≠
      CurrentLevel (SetLogLevel identityTable sampleLogger (LogLevel.String LMandatory)) := by
  decide

/-- C14 (amended): for every `LogLevel` value `v` other than `LMandatory`,
valid or out of range, and every prior state, `SetLevel(v)` leaves the
threshold `SetLogLevel(v.String())` leaves; `SetLevel(LMandatory)` leaves
`LMandatory`, where `SetLogLevel(LMandatory.String())` leaves `LError`. -/
theorem SetLevel_eq_SetLevelByName_of_ne_LMandatory (up : Char → Char) (l : LevelLogger)
    (v : LogLevel) :
    (v ≠ LMandatory → CurrentLevel (SetLevel l v).1 = CurrentLevel (SetLevelByName up l v)) ∧
    CurrentLevel (SetLevel l LMandatory).1 = LMandatory ∧
    CurrentLevel (SetLevelByName up l LMandatory) = LError := by
  refine ⟨fun hM => ?_, rfl, rfl⟩
  by_cases hv : v ≤ LTrace
  · rcases (LogLevel_le_LTrace_iff v).1 hv with h | h | h | h | h | h | h
    all_goals first
      | exact absurd h hM
      | (rw [h]; rfl)
  · have hlt : LTrace < v := not_le.mp hv
    have hL : CurrentLevel (SetLevel l v).1 = LError := by
      simp [SetLevel, CurrentLevel, hlt]
    have hR : CurrentLevel (SetLevelByName up l v) = LError := by
      unfold SetLevelByName
      rw [LogLevel_String_of_LTrace_lt v hlt]
      rfl
    rw [hL, hR]

/-- C14 (amended) at the out-of-range values 254 and 7 and at `LDebug`. -/
theorem SetLevel_eq_SetLevelByName_of_ne_LMandatory_witness :
    CurrentLevel (SetLevel sampleLogger 254).1 =
      CurrentLevel (SetLevelByName identityTable sampleLogger 254) ∧
    CurrentLevel (SetLevel sampleLogger 7).1 =
      CurrentLevel (SetLevelByName identityTable sampleLogger 7) ∧
    CurrentLevel (SetLevel sampleLogger LDebug).1 =
      CurrentLevel (SetLevelByName identityTable sampleLogger LDebug) :=
  ⟨(SetLevel_eq_SetLevelByName_of_ne_LMandatory identityTable sampleLogger 254).1
      (by decide),
    (SetLevel_eq_SetLevelByName_of_ne_LMandatory identityTable sampleLogger 7).1
      (by decide),
    (SetLevel_eq_SetLevelByName_of_ne_LMandatory identityTable sampleLogger LDebug).1
      (by decide)⟩

/-! ## C15: the line sent to the sink -/

/-- A permitted emission method sends the prefix of its severity followed
by its rendered message, with depth 3. -/
theorem emit_output_of_le {Param : Type} (F : Fmt Param) (l : LevelLogger)
    (e : Emission Param) (h : e.severity ≤ l.currentLevel) :
    (emit F l e).output =
      l.output ++ [{ calldepth := 3, s := LogLevel.Prefix e.severity ++ e.rendered F }] := by
  cases e
  all_goals first
    | exact congrArg LevelLogger.output (log_of_le F l _ _ h)
    | exact congrArg LevelLogger.output (logf_of_le F l _ _ _ h)

/-- C15: a permitted call at severity `S` makes a single sink call with
caller-depth hint 3 and the text `S.Prefix()`, that is `S.String()` followed
by `" - "`, concatenated with the rendered message: `fmt.Sprint(params...)`
for `log` and the plain methods, `fmt.Sprintf(format, params...)` for `logf`
and the formatted methods. -/
theorem emitted_line_content {Param : Type} (F : Fmt Param) (l : LevelLogger)
    (S : LogLevel) (formattedString : String) (params : List Param)
    (e : Emission Param) :
    (S ≤ l.currentLevel →
      (log F l S params).output =
        l.output ++ [OutputCall.mk 3 (LogLevel.String S ++ " - " ++ F.Sprint params)] ∧
      (logf F l S formattedString params).output =
        l.output ++
          [OutputCall.mk 3 (LogLevel.String S ++ " - " ++ F.Sprintf formattedString params)]) ∧
    (e.severity ≤ l.currentLevel →
      (emit F l e).output =
        l.output ++
          [OutputCall.mk 3 (LogLevel.String e.severity ++ " - " ++ e.rendered F)]) ∧
    LogLevel.Prefix S = LogLevel.String S ++ " - " := by
  refine ⟨fun h => ⟨?_, ?_⟩, fun h => emit_output_of_le F l e h, rfl⟩
  · rw [log_of_le F l S params h]
    rfl
  · rw [logf_of_le F l S formattedString params h]
    rfl

/-- C15 on a logger at `LError`: the lines `Error`, `Mandatory` and `logf`
at `LNone` send. -/
theorem emitted_line_content_witness :
    (emit sampleFmt sampleLogger (Emission.Error "boom")).output =
      sampleLogger.output ++ [{ calldepth := 3, s := "ERROR - boom" }] ∧
    (emit sampleFmt sampleLogger (Emission.Mandatory "started" [])).output =
      sampleLogger.output ++ [{ calldepth := 3, s := "NOTICE - started" }] ∧
    (logf sampleFmt sampleLogger LNone "x" []).output =
      sampleLogger.output ++ [{ calldepth := 3, s := "NONE - x" }] :=
  ⟨(emitted_line_content sampleFmt sampleLogger LNone "x" []
      (Emission.Error "boom")).2.1 (by decide),
    (emitted_line_content sampleFmt sampleLogger LNone "x" []
      (Emission.Mandatory "started" [])).2.1 (by decide),
    ((emitted_line_content sampleFmt sampleLogger LNone "x" []
      (Emission.Error "boom")).1 (by decide)).2⟩

/-! ## C16: the setter by name and `LMandatory` -/

/-- The level `SetLogLevel` stores is one of the six its switch assigns. -/
theorem SetLogLevel_currentLevel_mem (up : Char → Char) (l : LevelLogger) (s : String) :
    (SetLogLevel up l s).currentLevel ∈ [LNone, LError, LWarn, LInfo, LDebug, LTrace] := by
  unfold SetLogLevel
  simp only []
  split_ifs
  all_goals first
    | exact (by decide : LNone ∈ [LNone, LError, LWarn, LInfo, LDebug, LTrace])
    | exact (by decide : LError ∈ [LNone, LError, LWarn, LInfo, LDebug, LTrace])
    | exact (by decide : LWarn ∈ [LNone, LError, LWarn, LInfo, LDebug, LTrace])
    | exact (by decide : LInfo ∈ [LNone, LError, LWarn, LInfo, LDebug, LTrace])
    | exact (by decide : LDebug ∈ [LNone, LError, LWarn, LInfo, LDebug, LTrace])
    | exact (by decide : LTrace ∈ [LNone, LError, LWarn, LInfo, LDebug, LTrace])

theorem SetLogLevel_currentLevel_ne_LMandatory (up : Char → Char) (l : LevelLogger)
    (s : String) : (SetLogLevel up l s).currentLevel ≠ LMandatory := by
  intro h
  have hmem := SetLogLevel_currentLevel_mem up l s
  rw [h] at hmem
  exact absurd hmem (by decide)

/-- A call that leaves the threshold `LMandatory` found it there or is
`SetLevel(LMandatory)`. -/
theorem step_currentLevel_eq_LMandatory {Param : Type} (up : Char → Char) (F : Fmt Param)
    (l : LevelLogger) (c : Call Param) (h : (step up F l c).currentLevel = LMandatory) :
    l.currentLevel = LMandatory ∨ c = Call.SetLevel LMandatory := by
  cases c with
  | SetLogLevel level => exact absurd h (SetLogLevel_currentLevel_ne_LMandatory up l level)
  | SetLevel ll =>
    right
    have h' : (SetLevel l ll).1.currentLevel = LMandatory := h
    unfold SetLevel at h'
    split_ifs at h' with hgt
    · exact absurd (show LError = LMandatory from h') (by decide)
    · have hll : ll = LMandatory := h'
      rw [hll]
  | CurrentLevel => exact Or.inl h
  | Emit e =>
    left
    have h' : (emit F l e).currentLevel = LMandatory := h
    rw [emit_currentLevel] at h'
    exact h'

theorem run_currentLevel_eq_LMandatory {Param : Type} (up : Char → Char) (F : Fmt Param)
    (calls : List (Call Param)) :
    ∀ l : LevelLogger, (run up F l calls).currentLevel = LMandatory →
      l.currentLevel = LMandatory ∨ Call.SetLevel LMandatory ∈ calls := by
  induction calls with
  | nil => exact fun l h => Or.inl h
  | cons c calls ih =>
    intro l h
    rcases ih (step up F l c) h with h1 | h1
    · rcases step_currentLevel_eq_LMandatory up F l c h1 with h2 | h2
      · exact Or.inl h2
      · exact Or.inr (h2 ▸ List.mem_cons_self _ _)
    · exact Or.inr (List.mem_cons_of_mem _ h1)

/-- C16: whatever the string and the prior state, the threshold after
`SetLogLevel` is one of `LNone`, `LError`, `LWarn`, `LInfo`, `LDebug`,
`LTrace` and is not `LMandatory`; a logger created by `New` whose threshold
is `LMandatory` after a sequence of calls received `SetLevel(LMandatory)`
among them, and `SetLevel(LMandatory)` does set `LMandatory`. -/
theorem SetLogLevel_never_selects_LMandatory {Param : Type} (up : Char → Char)
    (F : Fmt Param) (l : LevelLogger) (s : String) (logLevelConfig pfx : String)
    (flag : Nat) (calls : List (Call Param)) :
    CurrentLevel (SetLogLevel up l s) ∈ [LNone, LError, LWarn, LInfo, LDebug, LTrace] ∧
    CurrentLevel (SetLogLevel up l s) ≠ LMandatory ∧
    (CurrentLevel (run up F (New up logLevelConfig pfx flag) calls) = LMandatory →
      Call.SetLevel LMandatory ∈ calls) ∧
    CurrentLevel (SetLevel l LMandatory).1 = LMandatory := by
  refine ⟨SetLogLevel_currentLevel_mem up l s,
    SetLogLevel_currentLevel_ne_LMandatory up l s, fun h => ?_, rfl⟩
  rcases run_currentLevel_eq_LMandatory up F calls _ h with h1 | h1
  · exact absurd h1 (SetLogLevel_currentLevel_ne_LMandatory up _ logLevelConfig)
  · exact h1

/-- C16 at a logger that received `SetLogLevel("notice")`, `SetLevel(LMandatory)`
and `Warnp`, in this order, and ends at `LMandatory`. -/
theorem SetLogLevel_never_selects_LMandatory_witness :
    CurrentLevel (SetLogLevel identityTable sampleLogger "notice") ≠ LMandatory ∧
    (Call.SetLevel LMandatory : Call String) ∈
      [Call.SetLogLevel "notice", Call.SetLevel LMandatory, Call.Emit (Emission.Warnp ["w"])] :=
  ⟨(SetLogLevel_never_selects_LMandatory identityTable sampleFmt sampleLogger "notice" ""
      "" DefaultFlags []).2.1,
    (SetLogLevel_never_selects_LMandatory identityTable sampleFmt sampleLogger "notice" ""
      "" DefaultFlags
      [Call.SetLogLevel "notice", Call.SetLevel LMandatory,
        Call.Emit (Emission.Warnp ["w"])]).2.2.1 (by decide)⟩

/-! ## C17: filtering is monotone -/

theorem reachesSink_Output (l : LevelLogger) (calldepth : Nat) (s : String) :
    reachesSink l (Output l calldepth s) := by
  refine ⟨?_, ?_⟩
  · rw [Output_output]
    simp
  · rw [Output_output]
    simp

theorem not_reachesSink_self (l : LevelLogger) : ¬ reachesSink l l := by
  rintro ⟨hne, hdrop⟩
  have hlen := congrArg List.length hdrop
  rw [List.length_dropLast] at hlen
  have hpos : 0 < l.output.length := List.length_pos.mpr hne
  omega

/-- An emission through `log` reaches the sink exactly when its severity is
at most the threshold. -/
theorem reachesSink_log_iff {Param : Type} (F : Fmt Param) (l : LevelLogger)
    (level : LogLevel) (params : List Param) :
    reachesSink l (log F l level params) ↔ level ≤ l.currentLevel := by
  constructor
  · intro h
    by_contra hle
    rw [log_of_lt F l level params (not_le.mp hle)] at h
    exact not_reachesSink_self l h
  · intro h
    rw [log_of_le F l level params h]
    exact reachesSink_Output l _ _

/-- An emission through `logf` reaches the sink exactly when its severity
is at most the threshold. -/
theorem reachesSink_logf_iff {Param : Type} (F : Fmt Param) (l : LevelLogger)
    (level : LogLevel) (formattedString : String) (params : List Param) :
    reachesSink l (logf F l level formattedString params) ↔ level ≤ l.currentLevel := by
  constructor
  · intro h
    by_contra hle
    rw [logf_of_lt F l level formattedString params (not_le.mp hle)] at h
    exact not_reachesSink_self l h
  · intro h
    rw [logf_of_le F l level formattedString params h]
    exact reachesSink_Output l _ _

/-- An emission method reaches the sink exactly when its severity is at most
the threshold. -/
theorem reachesSink_emit_iff {Param : Type} (F : Fmt Param) (l : LevelLogger)
    (e : Emission Param) : reachesSink l (emit F l e) ↔ e.severity ≤ l.currentLevel := by
  cases e
  all_goals first
    | exact reachesSink_log_iff F l _ _
    | exact reachesSink_logf_iff F l _ _ _

/-- C17: filtering is monotone in both arguments.  For thresholds
`T1 <= T2` and a severity `S`, an emission at `S` that reaches the sink under
`T1` reaches it under `T2`; for a threshold `T` and severities `S1 <= S2`, if
an emission at `S2` reaches the sink under `T`, so does an emission at `S1`.
This holds of `log`, of `logf` and of the emission methods. -/
theorem filtering_monotone {Param : Type} (F : Fmt Param) (l1 l2 l : LevelLogger)
    (S S1 S2 : LogLevel) (f f' : String) (ps ps' : List Param) (e e1 e2 : Emission Param) :
    (l1.currentLevel ≤ l2.currentLevel →
      (reachesSink l1 (log F l1 S ps) → reachesSink l2 (log F l2 S ps)) ∧
      (reachesSink l1 (logf F l1 S f ps) → reachesSink l2 (logf F l2 S f ps)) ∧
      (reachesSink l1 (emit F l1 e) → reachesSink l2 (emit F l2 e))) ∧
    (S1 ≤ S2 →
      (reachesSink l (log F l S2 ps) → reachesSink l (log F l S1 ps')) ∧
      (reachesSink l (logf F l S2 f ps) → reachesSink l (logf F l S1 f' ps'))) ∧
    (e1.severity ≤ e2.severity →
      reachesSink l (emit F l e2) → reachesSink l (emit F l e1)) := by
  refine ⟨fun hT => ⟨fun h => ?_, fun h => ?_, fun h => ?_⟩,
    fun hS => ⟨fun h => ?_, fun h => ?_⟩, fun hS h => ?_⟩
  · exact (reachesSink_log_iff F l2 S ps).2
      (le_trans ((reachesSink_log_iff F l1 S ps).1 h) hT)
  · exact (reachesSink_logf_iff F l2 S f ps).2
      (le_trans ((reachesSink_logf_iff F l1 S f ps).1 h) hT)
  · exact (reachesSink_emit_iff F l2 e).2 (le_trans ((reachesSink_emit_iff F l1 e).1 h) hT)
  · exact (reachesSink_log_iff F l S1 ps').2
      (le_trans hS ((reachesSink_log_iff F l S2 ps).1 h))
  · exact (reachesSink_logf_iff F l S1 f' ps').2
      (le_trans hS ((reachesSink_logf_iff F l S2 f ps).1 h))
  · exact (reachesSink_emit_iff F l e1).2 (le_trans hS ((reachesSink_emit_iff F l e2).1 h))

/-- C17 with the thresholds `LError` and `LDebug` for an emission at
`LError`, and with the severities `LWarn` and `LInfo` under the threshold
`LDebug`. -/
theorem filtering_monotone_witness :
    reachesSink (SetLogLevel identityTable sampleLogger "debug")
      (log sampleFmt (SetLogLevel identityTable sampleLogger "debug") LError ["a"]) ∧
    reachesSink (SetLogLevel identityTable sampleLogger "debug")
      (logf sampleFmt (SetLogLevel identityTable sampleLogger "debug") LWarn "g" ["b"]) ∧
    reachesSink (SetLogLevel identityTable sampleLogger "debug")
      (emit sampleFmt (SetLogLevel identityTable sampleLogger "debug")
        (Emission.Mandatoryp ["m"])) :=
  ⟨((filtering_monotone sampleFmt sampleLogger
      (SetLogLevel identityTable sampleLogger "debug")
      (SetLogLevel identityTable sampleLogger "debug") LError LWarn LInfo "f" "g" ["a"] ["b"]
      (Emission.Error "e") (Emission.Mandatoryp ["m"]) (Emission.Debug "d" [])).1
      (by decide)).1 (by decide),
    ((filtering_monotone sampleFmt sampleLogger
      (SetLogLevel identityTable sampleLogger "debug")
      (SetLogLevel identityTable sampleLogger "debug") LError LWarn LInfo "f" "g" ["a"] ["b"]
      (Emission.Error "e") (Emission.Mandatoryp ["m"]) (Emission.Debug "d" [])).2.1
      (by decide)).2 (by decide),
    (filtering_monotone sampleFmt sampleLogger
      (SetLogLevel identityTable sampleLogger "debug")
      (SetLogLevel identityTable sampleLogger "debug") LError LWarn LInfo "f" "g" ["a"] ["b"]
      (Emission.Error "e") (Emission.Mandatoryp ["m"]) (Emission.Debug "d" [])).2.2
      (by decide) (by decide)⟩
